import Mathlib

/-!
# Verification of the markdown viewer's file lifecycle and dirty-state protocol

A shallow embedding of the cross-process file lifecycle of the markdown
editor/viewer: the renderer-side UI session (`src/renderer/js/app.js`), the
main-process IPC handlers (`src/main/ipc/handlers.js`) and the atomic
file-write helper (the file service).  Renderer-side DOM effects (preview
rendering, toolbar display) are not modelled; outbound IPC messages and
native-OS side effects are modelled explicitly as effect lists.
-/

namespace MarkdownViewer

/-! ## UI Session (renderer process, `app.js`)

The renderer owns `App.isDirty`, the editor buffer and the displayed
filename.  Outbound IPC traffic (via `IPCService`) is modelled as a list of
`UIMsg` values produced by each event handler.
-/

/-- View mode of the toolbar (`Toolbar.getMode()`). -/
inductive ViewMode
  | edit
  | preview
  | split
deriving DecidableEq, Repr

/-- Renderer-side state: `App.isDirty`, the editor buffer content and the
displayed filename (`Toolbar.setFilename` target), plus the current view
mode. -/
structure UIState where
  isDirty : Bool
  content : String
  filename : String
  mode : ViewMode
deriving DecidableEq, Repr

/-- Outbound messages from the renderer to the main process
(`IPCService.setDirtyState`, `saveFile`, `saveFileAs`, `openPath`,
`showError`). -/
inductive UIMsg
  | setDirtyState (isDirty : Bool)
  | fileContent (content : String)
  | fileContentSaveAs (content : String) (path : String)
  | requestOpenPath (path : String)
  | showError (title : String) (message : String) (detail : String)
deriving DecidableEq, Repr

/-- `App.markDirty()`: sets `isDirty` and notifies the host only on the
false-to-true edge. -/
def markDirty (s : UIState) : UIState × List UIMsg :=
  if s.isDirty then (s, [])
  else ({ s with isDirty := true }, [UIMsg.setDirtyState true])

/-- `App.markClean()`: clears `isDirty` and notifies the host only on the
true-to-false edge. -/
def markClean (s : UIState) : UIState × List UIMsg :=
  if s.isDirty then ({ s with isDirty := false }, [UIMsg.setDirtyState false])
  else (s, [])

/-- Split a character list on separators, JavaScript-`split` style: the
result always has one group per separator plus one, so `""` yields `[""]`
and a leading/trailing separator yields an empty group. -/
def splitOnChars (sep : Char → Bool) : List Char → List (List Char)
  | [] => [[]]
  | c :: cs =>
      let r := splitOnChars sep cs
      if sep c then [] :: r
      else
        match r with
        | [] => [[c]]
        | g :: gs => (c :: g) :: gs

/-- `filePath.split(/[\\/]/).pop()`: the final path component after
splitting on forward and back slashes. -/
def jsBasename (p : String) : String :=
  String.mk ((splitOnChars (fun c => c == '/' || c == '\\') p.data).getLastD [])

/-- Events the UI session reacts to: editor input (carrying the new buffer
content), and the four IPC events delivered from the main process. -/
inductive UIEvent
  | input (newContent : String)
  | opened (content : String) (filename : String)
  | saveRequested
  | saveAsRequested (path : String)
  | saved (path : String) (filename : String)
deriving DecidableEq, Repr

/-- One step of the UI session's event handling, from
`App.setupEventHandlers`:
* `input`: the editor buffer has changed (split mode re-renders the
  preview, a DOM effect not modelled), then `markDirty()`;
* `opened` (`FILE_OPENED`): `Editor.setContent`, `Toolbar.setFilename`,
  re-render, `markClean()`;
* `saveRequested` (`SAVE_FILE`): reply with the current buffer;
* `saveAsRequested` (`SAVE_FILE_AS`): reply with buffer and path, then
  optimistically update the displayed filename when the basename is
  non-empty;
* `saved` (`FILE_SAVED`): set the displayed filename when non-empty, then
  `markClean()`. -/
def uiStep (s : UIState) : UIEvent → UIState × List UIMsg
  | UIEvent.input newContent =>
      markDirty { s with content := newContent }
  | UIEvent.opened content filename =>
      markClean { s with content := content, filename := filename }
  | UIEvent.saveRequested =>
      (s, [UIMsg.fileContent s.content])
  | UIEvent.saveAsRequested path =>
      let fname := jsBasename path
      let s1 := if fname.isEmpty then s else { s with filename := fname }
      (s1, [UIMsg.fileContentSaveAs s.content path])
  | UIEvent.saved _path filename =>
      let s1 := if filename.isEmpty then s else { s with filename := filename }
      markClean s1

/-- Run the UI session over a list of events, accumulating outbound
messages in order. -/
def uiRun (s : UIState) : List UIEvent → UIState × List UIMsg
  | [] => (s, [])
  | e :: es =>
      let r1 := uiStep s e
      let r2 := uiRun r1.1 es
      (r2.1, r1.2 ++ r2.2)

/-! ## Host Controller (main process, `ipc/handlers.js`)

The main process owns `currentFile` (the authoritative path).  Its side
effects — dialogs, window affordance calls, recent-documents updates, the
`fileService.writeFile` call and outbound IPC sends — are modelled as a
list of `HostEff` values.  The outcome of the asynchronous
`fileService.writeFile` / `fileService.readFile` calls is passed in as an
`Except` parameter.
-/

/-- Ambient facts about the process and window the handlers consult:
`process.platform === 'darwin'`, whether `mainWindowRef` is set and whether
that window `isDestroyed()`. -/
structure HostCtx where
  darwin : Bool
  refSet : Bool
  destroyed : Bool
deriving DecidableEq, Repr

/-- Host-side state the handlers mutate: the module-level `currentFile`
(`null` is `none`). -/
structure HostState where
  currentFile : Option String
deriving DecidableEq, Repr

/-- Observable host-side effects, in program order: error dialogs
(`dialog.showMessageBox`), window affordances (`setDocumentEdited`,
`setRepresentedFilename`), `app.addRecentDocument`, the
`fileService.writeFile` invocation, and IPC sends to the renderer
(`FILE_SAVED`, `FILE_OPENED`). -/
inductive HostEff
  | errorDialog (title : String) (detail : String)
  | setDocumentEdited (edited : Bool)
  | setRepresentedFilename (path : String)
  | addRecentDocument (path : String)
  | writeAttempt (path : String) (content : String)
  | sendFileSaved (path : String) (filename : String)
  | sendFileOpened (content : String) (filename : String)
deriving DecidableEq, Repr

/-- JavaScript truthiness test used on string-valued IPC payloads and on
`currentFile`: `!x` is true for `null`/`undefined` (here `none`) and for
the empty string. -/
def strFalsy : Option String → Bool
  | none => true
  | some s => s.isEmpty

/-- `fileService.getFilename` = `path.basename`, modelled as the final
component of a slash-separated path (the host runs on POSIX paths). -/
def getFilename (p : String) : String :=
  String.mk ((splitOnChars (fun c => c == '/') p.data).getLastD [])

/-- `showSaveError(window, message)`: shows the "Save Failed" message box
when the window reference is set and not destroyed, else does nothing. -/
def showSaveErrorEff (ctx : HostCtx) (message : String) : List HostEff :=
  if ctx.refSet && !ctx.destroyed then [HostEff.errorDialog "Save Failed" message]
  else []

/-- `showOpenError(window, message)`: the "Open Failed" counterpart. -/
def showOpenErrorEff (ctx : HostCtx) (message : String) : List HostEff :=
  if ctx.refSet && !ctx.destroyed then [HostEff.errorDialog "Open Failed" message]
  else []

/-- The effects of an invalid / failed save path in both save handlers:
`showSaveError(...)` followed by `if (mainWindowRef)
mainWindowRef.setDocumentEdited(true)` (the latter guarded only on the
reference being set). -/
def saveFailureEffs (ctx : HostCtx) (message : String) : List HostEff :=
  showSaveErrorEff ctx message ++
    (if ctx.refSet then [HostEff.setDocumentEdited true] else [])

/-- `notifyFileSaved(filePath)`: returns early when the window is missing
or destroyed; on macOS re-asserts the represented file and clears the
document-edited affordance; always (when the window is alive) sends
`FILE_SAVED(filePath, filename)` to the renderer. -/
def notifyFileSaved (ctx : HostCtx) (filePath : String) : List HostEff :=
  if !ctx.refSet || ctx.destroyed then []
  else
    (if ctx.darwin then
        [HostEff.setRepresentedFilename filePath, HostEff.setDocumentEdited false]
      else []) ++
      [HostEff.sendFileSaved filePath (getFilename filePath)]

/-- The `FILE_CONTENT` (save to the current file) handler.  `writeRes` is
the outcome of `await fileService.writeFile(currentFile, content)`; the
`catch` branch reports `error.message` and re-asserts the dirty
affordance. -/
def handleFileContent (ctx : HostCtx) (writeRes : Except String Unit)
    (st : HostState) (content : Option String) : HostState × List HostEff :=
  if strFalsy st.currentFile then
    (st, saveFailureEffs ctx
      "No file to save. Please use \"Save As\" to create a new file.")
  else
    match content with
    | none => (st, saveFailureEffs ctx "No content to save")
    | some c =>
        let p := st.currentFile.getD ""
        match writeRes with
        | Except.ok _ => (st, HostEff.writeAttempt p c :: notifyFileSaved ctx p)
        | Except.error m => (st, HostEff.writeAttempt p c :: saveFailureEffs ctx m)

/-- The `FILE_CONTENT_SAVE_AS` handler.  Validates `filePath` (falsy is
invalid) and `content` (`undefined`/`null` invalid) before writing; only
after `await fileService.writeFile(filePath, content)` resolves is
`currentFile = filePath` assigned; the `catch` branch leaves `currentFile`
untouched. -/
def handleFileContentSaveAs (ctx : HostCtx) (writeRes : Except String Unit)
    (st : HostState) (content : Option String) (filePath : Option String) :
    HostState × List HostEff :=
  if strFalsy filePath then
    (st, saveFailureEffs ctx "No file path provided")
  else
    match content with
    | none => (st, saveFailureEffs ctx "No content to save")
    | some c =>
        let p := filePath.getD ""
        match writeRes with
        | Except.ok _ =>
            ({ currentFile := some p }, HostEff.writeAttempt p c :: notifyFileSaved ctx p)
        | Except.error m => (st, HostEff.writeAttempt p c :: saveFailureEffs ctx m)

/-- `handleOpenFile(mainWindow, filePath)`: `readRes` is the outcome of
`await fileService.readFile(filePath)`.  On success sets `currentFile`,
updates the macOS represented-file and recent-documents affordances, sends
`FILE_OPENED(content, filename)` and clears the document-edited
affordance; on failure shows the open-error dialog and leaves state
unchanged. -/
def handleOpenFile (ctx : HostCtx) (readRes : Except String String)
    (st : HostState) (filePath : String) : HostState × List HostEff :=
  match readRes with
  | Except.ok content =>
      ({ currentFile := some filePath },
        (if ctx.darwin && ctx.refSet && !ctx.destroyed then
            [HostEff.setRepresentedFilename filePath]
          else []) ++
          (if ctx.darwin then [HostEff.addRecentDocument filePath] else []) ++
          [HostEff.sendFileOpened content (getFilename filePath),
            HostEff.setDocumentEdited false])
  | Except.error m => (st, showOpenErrorEff ctx m)

/-- The `REQUEST_OPEN_PATH` handler: `if (!filePath) return;`, otherwise
(when a target window exists) delegates to `handleOpenFile`. -/
def handleRequestOpenPath (ctx : HostCtx) (readRes : Except String String)
    (st : HostState) (filePath : Option String) : HostState × List HostEff :=
  if strFalsy filePath then (st, [])
  else if ctx.refSet then handleOpenFile ctx readRes st (filePath.getD "")
  else (st, [])

/-- Messages the renderer receives as a consequence of a host effect:
`FILE_SAVED` and `FILE_OPENED` become UI events, everything else is an
OS-side effect invisible to the renderer. -/
def hostEffToUIEvents : HostEff → List UIEvent
  | HostEff.sendFileSaved p n => [UIEvent.saved p n]
  | HostEff.sendFileOpened c n => [UIEvent.opened c n]
  | _ => []

/-! ## Drag-and-drop validation (renderer, `App.setupDragAndDrop`)

The validating drop handler: the `VALID_EXTENSIONS` allow-list, the
`/\.[^.]+$/` extension match on the lowercased path, and
`showInvalidFileError` on rejection. -/

/-- `VALID_EXTENSIONS` from `App.setupDragAndDrop`. -/
def validExtensions : List String :=
  [".md", ".markdown", ".mdown", ".mkd", ".mkdn", ".txt", ".text",
    ".html", ".htm", ".json", ".mdx", ".rmd", ".adoc"]

/-- `s.match(/\.[^.]+$/)?.[0]`: the trailing dot-extension — a final `.`
followed by one or more non-dot characters running to the end of the
string — or `none` when the string has no such suffix. -/
def jsLastExt (s : String) : Option String :=
  let rev := s.data.reverse
  let after := rev.takeWhile (fun c => c ≠ '.')
  match rev.drop after.length with
  | '.' :: _ =>
      if after.isEmpty then none else some (String.mk ('.' :: after.reverse))
  | _ => none

/-- `p.toLowerCase()`, character by character. -/
def jsToLower (s : String) : String :=
  String.mk (s.data.map Char.toLower)

/-- The drop handler's extension test:
`VALID_EXTENSIONS.includes(file.path.toLowerCase().match(...)?.[0])`
(`includes(undefined)` is false). -/
def extAllowed (p : String) : Bool :=
  match jsLastExt (jsToLower p) with
  | some e => validExtensions.contains e
  | none => false

/-- The `detail` string of `showInvalidFileError`, ending in
`ext || 'unknown'`. -/
def invalidFileDetail (ext : Option String) : String :=
  "Markdown Viewer supports markdown (.md, .markdown, .mdx), text (.txt), HTML (.html), and other markup formats. The file you selected has extension: "
    ++ ext.getD "unknown"

/-- The validating `handleDrop`: takes the first dropped file as
`(name, path)` (or `none` when no file was dropped); returns early on a
missing/falsy path; rejects extensions outside `validExtensions` with one
`showInvalidFileError` call; otherwise asks the host to open the path. -/
def handleDrop (file : Option (String × Option String)) : List UIMsg :=
  match file with
  | none => []
  | some (name, pathOpt) =>
      if strFalsy pathOpt then []
      else
        let p := pathOpt.getD ""
        if extAllowed p then [UIMsg.requestOpenPath p]
        else
          [UIMsg.showError "Unsupported File Type"
            ("Cannot open \"" ++ name ++ "\"")
            (invalidFileDetail (jsLastExt (jsToLower p)))]

/-! ## Atomic file write (`fileService.writeFile`)

`writeFile(filePath, content)` writes a temp sibling
`.`‹basename›`.tmp-`‹timestamp› in `path.dirname(filePath)`, renames it
over the target, falls back to `copyFile` + `fsync` on `EXDEV`, rethrows
any other error, and in a `finally` block unlinks the temp file ignoring
unlink errors.  Filesystem paths are `(directory, basename)` pairs; the
outcomes of the individual `fs.promises` calls form a `WriteEnv`, and the
calls the function issues are recorded as an `FsOp` trace. -/

/-- A filesystem path, split as `path.dirname` / `path.basename`. -/
structure FPath where
  dir : String
  base : String
deriving DecidableEq, Repr

/-- The temp-file basename `` `.${targetName}.tmp-${Date.now()}` ``. -/
def tempBase (base ts : String) : String :=
  "." ++ base ++ ".tmp-" ++ ts

/-- Outcome of the `fs.promises.rename` call: success, an `EXDEV`
cross-volume error, or any other error. -/
inductive RenameOutcome
  | ok
  | exdev
  | fail
deriving DecidableEq, Repr

/-- Outcomes of the primitive filesystem calls `writeFile` makes. -/
structure WriteEnv where
  tempWriteOk : Bool
  rename : RenameOutcome
  copyOk : Bool
  fsyncOk : Bool
  unlinkOk : Bool
deriving DecidableEq, Repr

/-- The primitive filesystem calls: `fs.promises.writeFile`, `rename`,
`copyFile`, the open/`fd.sync()`/close flush, and `unlink`. -/
inductive FsOp
  | write (p : FPath) (content : String)
  | rename (src : FPath) (dst : FPath)
  | copy (src : FPath) (dst : FPath)
  | fsync (p : FPath)
  | unlink (p : FPath)
deriving DecidableEq, Repr

/-- The sequence of filesystem calls `writeFile(dir/base, content)` issues
under outcome environment `env` (`ts` is the `Date.now()` stamp): write
the temp file; if that succeeded, rename it over the target; on `EXDEV`,
copy to the target and — if the copy succeeded — fsync the target; and in
all cases finally unlink the temp file. -/
def writeFileSteps (env : WriteEnv) (dir base ts content : String) : List FsOp :=
  let tgt : FPath := ⟨dir, base⟩
  let tmp : FPath := ⟨dir, tempBase base ts⟩
  if env.tempWriteOk then
    match env.rename with
    | RenameOutcome.ok =>
        [FsOp.write tmp content, FsOp.rename tmp tgt, FsOp.unlink tmp]
    | RenameOutcome.fail =>
        [FsOp.write tmp content, FsOp.rename tmp tgt, FsOp.unlink tmp]
    | RenameOutcome.exdev =>
        if env.copyOk then
          [FsOp.write tmp content, FsOp.rename tmp tgt, FsOp.copy tmp tgt,
            FsOp.fsync tgt, FsOp.unlink tmp]
        else
          [FsOp.write tmp content, FsOp.rename tmp tgt, FsOp.copy tmp tgt,
            FsOp.unlink tmp]
  else [FsOp.write tmp content, FsOp.unlink tmp]

/-- Whether `writeFile` resolves (rather than rejects): the temp write
succeeded and either the rename succeeded or the `EXDEV` fallback's copy
and fsync both succeeded.  The unlink outcome is swallowed by
`.catch(() => \x7b\x7d)` and never affects the result. -/
def writeFileOk (env : WriteEnv) : Bool :=
  env.tempWriteOk &&
    (env.rename == RenameOutcome.ok ||
      (env.rename == RenameOutcome.exdev && env.copyOk && env.fsyncOk))

/-- Effect of one (possibly failing) filesystem call on the disk state,
a map from paths to file contents, read at path `q`. -/
def applyOp (env : WriteEnv) (fs : FPath → Option String) :
    FsOp → FPath → Option String
  | FsOp.write p c, q =>
      if env.tempWriteOk then (if q = p then some c else fs q) else fs q
  | FsOp.rename a b, q =>
      if env.rename == RenameOutcome.ok then
        (if q = b then fs a else if q = a then none else fs q)
      else fs q
  | FsOp.copy a b, q =>
      if env.copyOk then (if q = b then fs a else fs q) else fs q
  | FsOp.fsync _, q => fs q
  | FsOp.unlink a, q =>
      if env.unlinkOk then (if q = a then none else fs q) else fs q

/-- Replay a trace of filesystem calls on a disk state. -/
def applyOps (env : WriteEnv) (ops : List FsOp) (fs : FPath → Option String) :
    FPath → Option String :=
  ops.foldl (applyOp env) fs

/-- The calls that install content at the target path. -/
def isRenameOrCopy : FsOp → Bool
  | FsOp.rename _ _ => true
  | FsOp.copy _ _ => true
  | _ => false

/-! ## Concrete instances used to exercise the model -/

/-- All UI events induced by a list of host effects, in order. -/
def uiEventsOfEffs (effs : List HostEff) : List UIEvent :=
  (effs.map hostEffToUIEvents).flatten

/-- A freshly initialised, clean UI session. -/
def uiClean : UIState :=
  { isDirty := false, content := "", filename := "untitled.md", mode := ViewMode.edit }

/-- The app's home platform: macOS, live window. -/
def ctxMac : HostCtx := { darwin := true, refSet := true, destroyed := false }

/-- A non-darwin platform with a live window. -/
def ctxLinux : HostCtx := { darwin := false, refSet := true, destroyed := false }

/-- An all-success filesystem environment. -/
def envAllOk : WriteEnv :=
  { tempWriteOk := true, rename := RenameOutcome.ok, copyOk := true,
    fsyncOk := true, unlinkOk := true }

/-- A cross-volume environment whose fsync fails. -/
def envExdevNoSync : WriteEnv :=
  { tempWriteOk := true, rename := RenameOutcome.exdev, copyOk := true,
    fsyncOk := false, unlinkOk := false }

/-- A one-file disk: `/docs/a.md` holds `"old"`. -/
def fs0 : FPath → Option String :=
  fun q => if q = ⟨"/docs", "a.md"⟩ then some "old" else none

/-- A host that has `/docs/a.md` open. -/
def stDocs : HostState := { currentFile := some "/docs/a.md" }

/-- A UI session with `"hello"` in the buffer, clean or dirty. -/
def uiHello (d : Bool) : UIState :=
  { isDirty := d, content := "hello", filename := "a.md", mode := ViewMode.edit }

/-! ## Theorems -/

/-- An already-dirty session absorbs editor input silently: the state stays
dirty and no message is emitted. -/
theorem uiRun_input_dirty (edits : List String) (s : UIState)
    (h : s.isDirty = true) :
    (uiRun s (edits.map UIEvent.input)).1.isDirty = true ∧
      (uiRun s (edits.map UIEvent.input)).2 = [] := by
  induction edits generalizing s with
  | nil => simpa [uiRun]
  | cons e es ih =>
      have hstep : uiStep s (UIEvent.input e) = ({ s with content := e }, []) := by
        simp [uiStep, markDirty, h]
      have ih1 := ih { s with content := e } h
      simp [uiRun, hstep, ih1.1, ih1.2]

/-- C1: for every sequence of N ≥ 1 editor input events processed by the
UI session starting from `isDirty = false`, with no intervening `OPENED`
or `SAVED` event, the outbound message stream is exactly one
`DIRTY_CHANGED(true)` — regardless of N — and `isDirty = true`
afterwards. -/
theorem edit_sets_dirty_once (s : UIState) (edits : List String)
    (h0 : s.isDirty = false) (hne : edits ≠ []) :
    (uiRun s (edits.map UIEvent.input)).1.isDirty = true ∧
      (uiRun s (edits.map UIEvent.input)).2 = [UIMsg.setDirtyState true] ∧
      ((uiRun s (edits.map UIEvent.input)).2.count (UIMsg.setDirtyState true)) = 1 := by
  cases edits with
  | nil => exact absurd rfl hne
  | cons e es =>
      have hstep : uiStep s (UIEvent.input e)
          = ({ s with content := e, isDirty := true }, [UIMsg.setDirtyState true]) := by
        simp [uiStep, markDirty, h0]
      have hrest := uiRun_input_dirty es { s with content := e, isDirty := true } rfl
      refine ⟨?_, ?_, ?_⟩
      · simp [uiRun, hstep, hrest.1]
      · simp [uiRun, hstep, hrest.2]
      · simp [uiRun, hstep, hrest.2]

/-- Witness for C1: three consecutive keystrokes from a clean session. -/
theorem edit_sets_dirty_once_witness :
    (uiClean.isDirty = false ∧ (["a", "ab", "abc"] : List String) ≠ []) ∧
      ((uiRun uiClean (["a", "ab", "abc"].map UIEvent.input)).1.isDirty = true ∧
        (uiRun uiClean (["a", "ab", "abc"].map UIEvent.input)).2
          = [UIMsg.setDirtyState true] ∧
        ((uiRun uiClean (["a", "ab", "abc"].map UIEvent.input)).2.count
            (UIMsg.setDirtyState true)) = 1) :=
  ⟨⟨rfl, by simp⟩, edit_sets_dirty_once uiClean ["a", "ab", "abc"] rfl (by simp)⟩

/-- C2 counterexample: from a prior state with `isDirty = false`, the
`OPENED` handler's `markClean()` takes the no-emission branch, so no
`DIRTY_CHANGED(false)` message is sent — refuting the claim's "for every
prior UI Session state ... emits a DIRTY_CHANGED(false) message". -/
theorem open_clean_emission_counterexample :
    uiClean.isDirty = false ∧
      (uiStep uiClean (UIEvent.opened "# Hi" "hi.md")).2 = [] := by
  exact ⟨rfl, rfl⟩

/-- C2 amended: processing `OPENED(content, displayName)` from any prior
state replaces the buffer, updates the displayed name and leaves
`isDirty = false`; a `DIRTY_CHANGED(false)` message is emitted exactly
when the prior `isDirty` was true (the true→false edge), and nothing is
emitted when the session was already clean. -/
theorem open_resets_dirty (s : UIState) (c n : String) :
    (uiStep s (UIEvent.opened c n)).1.content = c ∧
      (uiStep s (UIEvent.opened c n)).1.filename = n ∧
      (uiStep s (UIEvent.opened c n)).1.isDirty = false ∧
      (uiStep s (UIEvent.opened c n)).2
        = (if s.isDirty then [UIMsg.setDirtyState false] else []) := by
  cases h : s.isDirty <;> simp [uiStep, markClean, h]

/-- C3: the `FILE_CONTENT_SAVE_AS` handler updates `currentFile` to the
save-as target exactly when validation passed and the write resolved
successfully; when the path is missing/empty, the content is
`null`/`undefined`, or the write rejects, `currentFile` keeps its
pre-operation value. -/
theorem save_as_updates_path_only_on_success (ctx : HostCtx)
    (wr : Except String Unit) (st : HostState) (content : Option String)
    (filePath : Option String) :
    (handleFileContentSaveAs ctx wr st content filePath).1.currentFile =
      (match filePath, content, wr with
        | some p, some _, Except.ok _ =>
            if p.isEmpty then st.currentFile else some p
        | _, _, _ => st.currentFile) := by
  rcases filePath with _ | p
  · rcases content with _ | c <;> rcases wr with m | u <;>
      simp [handleFileContentSaveAs, strFalsy]
  · by_cases hp : p.isEmpty <;>
      rcases content with _ | c <;> rcases wr with m | u <;>
      simp [handleFileContentSaveAs, strFalsy, hp]

/-- C10: a `REQUEST_OPEN_PATH` message whose path payload is
`null`/`undefined` or the empty string is a no-op: no effects (no read, no
dialog, no IPC send) and `currentFile` unchanged. -/
theorem request_open_path_falsy_noop (ctx : HostCtx)
    (readRes : Except String String) (st : HostState) :
    handleRequestOpenPath ctx readRes st none = (st, []) ∧
      handleRequestOpenPath ctx readRes st (some "") = (st, []) := by
  exact ⟨rfl, rfl⟩

/-- A non-empty string is not `isEmpty`. -/
theorem isEmpty_false_of_ne (p : String) (hp : p ≠ "") : p.isEmpty = false := by
  cases hh : p.isEmpty
  · rfl
  · exact absurd ((String.isEmpty_iff p).mp hh) hp

/-- C7: with a live window, both save handlers treat `null`/`undefined`
content, a missing save-as path, and an unset `currentFile` as invalid —
each produces exactly the save-error dialog plus a
`setDocumentEdited(true)` re-assertion, with no write attempted — while an
empty-string content passes validation and is written to disk. -/
theorem save_payload_validation (ctx : HostCtx) (wr : Except String Unit)
    (st : HostState) (content : Option String) (p : String)
    (href : ctx.refSet = true) (hdes : ctx.destroyed = false) (hp : p ≠ "") :
    (handleFileContent ctx wr { currentFile := none } content
        = ({ currentFile := none },
          [HostEff.errorDialog "Save Failed"
              "No file to save. Please use \"Save As\" to create a new file.",
            HostEff.setDocumentEdited true])) ∧
      (handleFileContent ctx wr { currentFile := some p } none
        = ({ currentFile := some p },
          [HostEff.errorDialog "Save Failed" "No content to save",
            HostEff.setDocumentEdited true])) ∧
      (handleFileContentSaveAs ctx wr st content none
        = (st,
          [HostEff.errorDialog "Save Failed" "No file path provided",
            HostEff.setDocumentEdited true])) ∧
      (handleFileContentSaveAs ctx wr st none (some p)
        = (st,
          [HostEff.errorDialog "Save Failed" "No content to save",
            HostEff.setDocumentEdited true])) ∧
      ((handleFileContent ctx (Except.ok ()) { currentFile := some p }
          (some "")).2.head? = some (HostEff.writeAttempt p "")) ∧
      ((handleFileContentSaveAs ctx (Except.ok ()) st (some "")
          (some p)).2.head? = some (HostEff.writeAttempt p "")) := by
  have hpe : p.isEmpty = false := isEmpty_false_of_ne p hp
  refine ⟨?_, ?_, ?_, ?_, ?_, ?_⟩
  · simp [handleFileContent, strFalsy, saveFailureEffs, showSaveErrorEff, href, hdes]
  · simp [handleFileContent, strFalsy, hpe, saveFailureEffs, showSaveErrorEff,
      href, hdes]
  · simp [handleFileContentSaveAs, strFalsy, saveFailureEffs, showSaveErrorEff,
      href, hdes]
  · simp [handleFileContentSaveAs, strFalsy, hpe, saveFailureEffs,
      showSaveErrorEff, href, hdes]
  · simp [handleFileContent, strFalsy, hpe]
  · simp [handleFileContentSaveAs, strFalsy, hpe]

/-- Witness for C7 on macOS with target `/docs/a.md`. -/
theorem save_payload_validation_witness :
    (ctxMac.refSet = true ∧ ctxMac.destroyed = false ∧ "/docs/a.md" ≠ "") ∧
      ((handleFileContent ctxMac (Except.ok ()) { currentFile := some "/docs/a.md" }
          (some "")).2.head? = some (HostEff.writeAttempt "/docs/a.md" "")) :=
  ⟨⟨rfl, rfl, by simp⟩,
    (save_payload_validation ctxMac (Except.ok ())
      { currentFile := some "/docs/a.md" } (some "") "/docs/a.md"
      rfl rfl (by simp)).2.2.2.2.1⟩


/-- C6 counterexample: a save attempted from a clean UI session
(`isDirty = false`, e.g. plain save with no edits) whose write fails.  The
failure is reported (dialog shown, `setDocumentEdited(true)` forced), yet
the failure path sends nothing back to the renderer, so the UI session's
`isDirty` stays false — refuting "isDirty is true (or becomes true) even
if it was false immediately prior". -/
theorem write_failure_dirty_counterexample :
    (HostEff.errorDialog "Save Failed" "EACCES: permission denied")
        ∈ (handleFileContent ctxMac (Except.error "EACCES: permission denied")
          stDocs (some "hello")).2 ∧
      HostEff.setDocumentEdited true
        ∈ (handleFileContent ctxMac (Except.error "EACCES: permission denied")
          stDocs (some "hello")).2 ∧
      (uiHello false).isDirty = false ∧
      (uiRun (uiHello false)
          (uiEventsOfEffs
            (handleFileContent ctxMac (Except.error "EACCES: permission denied")
              stDocs (some "hello")).2)).1.isDirty = false := by
  have hpe : ("/docs/a.md").isEmpty = false := rfl
  have heffs : (handleFileContent ctxMac (Except.error "EACCES: permission denied")
      stDocs (some "hello")).2
      = [HostEff.writeAttempt "/docs/a.md" "hello",
        HostEff.errorDialog "Save Failed" "EACCES: permission denied",
        HostEff.setDocumentEdited true] := by
    simp [handleFileContent, stDocs, ctxMac, strFalsy, hpe, saveFailureEffs,
      showSaveErrorEff]
  refine ⟨?_, ?_, ?_, ?_⟩
  · simp [heffs]
  · simp [heffs]
  · rfl
  · simp [heffs, uiEventsOfEffs, hostEffToUIEvents, uiRun, uiHello]

/-- C6 amended: for a save whose write fails (live window, valid payload),
the handler's effects are exactly the write attempt, the error dialog and
the forced `setDocumentEdited(true)`; no `SAVED` acknowledgement is sent,
and the UI session's `isDirty` is left unchanged by the failure — in
particular it remains true whenever it was true before the attempt (it is
the host-side dirty affordance, not the UI flag, that is re-asserted). -/
theorem write_failure_keeps_dirty (ctx : HostCtx) (st : HostState)
    (p c m : String) (ui : UIState)
    (href : ctx.refSet = true) (hdes : ctx.destroyed = false)
    (hcur : st.currentFile = some p) (hp : p ≠ "") :
    (handleFileContent ctx (Except.error m) st (some c)).2
        = [HostEff.writeAttempt p c, HostEff.errorDialog "Save Failed" m,
          HostEff.setDocumentEdited true] ∧
      (∀ q n, HostEff.sendFileSaved q n
        ∉ (handleFileContent ctx (Except.error m) st (some c)).2) ∧
      (uiRun ui (uiEventsOfEffs
          (handleFileContent ctx (Except.error m) st (some c)).2)).1 = ui := by
  have hpe : p.isEmpty = false := isEmpty_false_of_ne p hp
  have heffs : (handleFileContent ctx (Except.error m) st (some c)).2
      = [HostEff.writeAttempt p c, HostEff.errorDialog "Save Failed" m,
        HostEff.setDocumentEdited true] := by
    simp [handleFileContent, strFalsy, hcur, hpe, saveFailureEffs,
      showSaveErrorEff, href, hdes]
  refine ⟨heffs, ?_, ?_⟩
  · intro q n
    simp [heffs]
  · simp [heffs, uiEventsOfEffs, hostEffToUIEvents, uiRun]

/-- Witness for C6 amended: failed save of `/docs/a.md` from a dirty
session on macOS. -/
theorem write_failure_keeps_dirty_witness :
    (ctxMac.refSet = true ∧ ctxMac.destroyed = false ∧
        stDocs.currentFile = some "/docs/a.md" ∧ "/docs/a.md" ≠ "") ∧
      (uiRun (uiHello true)
          (uiEventsOfEffs
            (handleFileContent ctxMac (Except.error "EACCES: permission denied")
              stDocs (some "hello")).2)).1 = uiHello true :=
  ⟨⟨rfl, rfl, rfl, by simp⟩,
    (write_failure_keeps_dirty ctxMac stDocs "/docs/a.md" "hello"
      "EACCES: permission denied" (uiHello true) rfl rfl rfl (by simp)).2.2⟩

/-- C9 counterexample: on a non-darwin platform a fully successful save
sends the `SAVED` acknowledgement but never calls
`setDocumentEdited(false)` or `setRepresentedFilename` — the affordance
updates in `notifyFileSaved` are guarded by
`process.platform === 'darwin'`, refuting the unconditional claim. -/
theorem save_success_affordance_counterexample :
    (HostEff.sendFileSaved "/docs/a.md" "a.md")
        ∈ (handleFileContent ctxLinux (Except.ok ()) stDocs (some "hi")).2 ∧
      HostEff.setDocumentEdited false
        ∉ (handleFileContent ctxLinux (Except.ok ()) stDocs (some "hi")).2 ∧
      (∀ q, HostEff.setRepresentedFilename q
        ∉ (handleFileContent ctxLinux (Except.ok ()) stDocs (some "hi")).2) := by
  have hpe : ("/docs/a.md").isEmpty = false := rfl
  have hfn : getFilename "/docs/a.md" = "a.md" := by decide
  have heffs : (handleFileContent ctxLinux (Except.ok ()) stDocs (some "hi")).2
      = [HostEff.writeAttempt "/docs/a.md" "hi",
        HostEff.sendFileSaved "/docs/a.md" "a.md"] := by
    simp [handleFileContent, stDocs, ctxLinux, strFalsy, hpe, notifyFileSaved,
      hfn]
  refine ⟨?_, ?_, ?_⟩
  · simp [heffs]
  · simp [heffs]
  · intro q
    simp [heffs]

/-- C9 amended: for every save or save-as whose write succeeds (live
window), the host sends `SAVED(path, displayName)` to the renderer and,
for save-as, updates `currentFile` to the written path; the
`setDocumentEdited(false)` / `setRepresentedFilename` affordance updates
are performed only when `process.platform === 'darwin'` and are skipped
otherwise. -/
theorem save_success_effects (ctx : HostCtx) (st : HostState) (p c : String)
    (href : ctx.refSet = true) (hdes : ctx.destroyed = false)
    (hcur : st.currentFile = some p) (hp : p ≠ "") :
    (handleFileContent ctx (Except.ok ()) st (some c)).2
        = HostEff.writeAttempt p c ::
          ((if ctx.darwin then
              [HostEff.setRepresentedFilename p, HostEff.setDocumentEdited false]
            else []) ++ [HostEff.sendFileSaved p (getFilename p)]) ∧
      (handleFileContent ctx (Except.ok ()) st (some c)).1 = st ∧
      (handleFileContentSaveAs ctx (Except.ok ()) st (some c) (some p)).1.currentFile
        = some p ∧
      (handleFileContentSaveAs ctx (Except.ok ()) st (some c) (some p)).2
        = HostEff.writeAttempt p c ::
          ((if ctx.darwin then
              [HostEff.setRepresentedFilename p, HostEff.setDocumentEdited false]
            else []) ++ [HostEff.sendFileSaved p (getFilename p)]) := by
  have hpe : p.isEmpty = false := isEmpty_false_of_ne p hp
  refine ⟨?_, ?_, ?_, ?_⟩ <;>
    simp [handleFileContent, handleFileContentSaveAs, strFalsy, hcur, hpe,
      notifyFileSaved, href, hdes]

/-- Witness for C9 amended: successful save-as to `/docs/a.md` on macOS. -/
theorem save_success_effects_witness :
    (ctxMac.refSet = true ∧ ctxMac.destroyed = false ∧
        stDocs.currentFile = some "/docs/a.md" ∧ "/docs/a.md" ≠ "") ∧
      (handleFileContentSaveAs ctxMac (Except.ok ()) stDocs (some "hi")
          (some "/docs/a.md")).1.currentFile = some "/docs/a.md" :=
  ⟨⟨rfl, rfl, rfl, by simp⟩,
    (save_success_effects ctxMac stDocs "/docs/a.md" "hi"
      rfl rfl rfl (by simp)).2.2.1⟩

/-- The temp-file basename is never the target basename: it is strictly
longer (a leading dot plus a `.tmp-` stamp). -/
theorem tempBase_ne_base (base ts : String) : tempBase base ts ≠ base := by
  intro h
  have hl := congrArg String.length h
  have hdot : String.length "." = 1 := rfl
  have htmp : String.length ".tmp-" = 5 := rfl
  simp only [tempBase, String.length_append, hdot, htmp] at hl
  omega

/-- The temp file and the target are distinct paths. -/
theorem tmp_ne_target (dir base ts : String) :
    (⟨dir, tempBase base ts⟩ : FPath) ≠ ⟨dir, base⟩ := by
  intro h
  exact tempBase_ne_base base ts (congrArg FPath.base h)

/-- Every call `writeFile` issues touches only the temp file and the
target: the trace's elements are among five fixed shapes. -/
theorem writeFileSteps_mem (env : WriteEnv) (dir base ts content : String)
    (op : FsOp) (h : op ∈ writeFileSteps env dir base ts content) :
    op = FsOp.write ⟨dir, tempBase base ts⟩ content ∨
      op = FsOp.rename ⟨dir, tempBase base ts⟩ ⟨dir, base⟩ ∨
      op = FsOp.copy ⟨dir, tempBase base ts⟩ ⟨dir, base⟩ ∨
      op = FsOp.fsync ⟨dir, base⟩ ∨
      op = FsOp.unlink ⟨dir, tempBase base ts⟩ := by
  rcases env with ⟨tw, rn, cp, fsy, ul⟩
  cases tw <;> cases rn <;> cases cp <;>
    simp [writeFileSteps] at h <;> tauto

/-- Replaying a trace each of whose calls leaves path `tgt` untouched
leaves the disk state at `tgt` untouched. -/
theorem applyOps_preserve (env : WriteEnv) (tgt : FPath) :
    ∀ (ops : List FsOp) (fs : FPath → Option String),
      (∀ op ∈ ops, ∀ g : FPath → Option String, applyOp env g op tgt = g tgt) →
      applyOps env ops fs tgt = fs tgt := by
  intro ops
  induction ops with
  | nil => intro fs _h; rfl
  | cons o os ih =>
      intro fs h
      have h1 := h o (List.mem_cons_self o os) fs
      have h2 := ih (applyOp env fs o)
        (fun op hop g => h op (List.mem_cons_of_mem o hop) g)
      calc applyOps env (o :: os) fs tgt
            = applyOps env os (applyOp env fs o) tgt := rfl
        _ = applyOp env fs o tgt := h2
        _ = fs tgt := h1

/-- C4: every disk write follows the temp-then-rename discipline: the
trace starts by writing the full content to a temp file in the target's
directory; when that succeeds the next call renames the temp file over the
target; on an `EXDEV` rename error the fallback copies the temp file to
the target and, when the copy succeeds, fsyncs the target; in all cases —
success or failure — the final call removes the temp file, and the unlink
outcome never affects whether `writeFile` resolves. -/
theorem writeFile_algorithm (env : WriteEnv) (dir base ts content : String) :
    (writeFileSteps env dir base ts content).head?
        = some (FsOp.write ⟨dir, tempBase base ts⟩ content) ∧
      (env.tempWriteOk = true →
        (writeFileSteps env dir base ts content)[1]?
          = some (FsOp.rename ⟨dir, tempBase base ts⟩ ⟨dir, base⟩)) ∧
      (env.tempWriteOk = true → env.rename = RenameOutcome.exdev →
        (writeFileSteps env dir base ts content)[2]?
            = some (FsOp.copy ⟨dir, tempBase base ts⟩ ⟨dir, base⟩) ∧
          (env.copyOk = true →
            (writeFileSteps env dir base ts content)[3]?
              = some (FsOp.fsync ⟨dir, base⟩))) ∧
      (writeFileSteps env dir base ts content).getLast?
        = some (FsOp.unlink ⟨dir, tempBase base ts⟩) ∧
      (∀ b : Bool, writeFileOk { env with unlinkOk := b } = writeFileOk env) ∧
      (writeFileOk env = true ↔
        (env.tempWriteOk = true ∧ (env.rename = RenameOutcome.ok ∨
          (env.rename = RenameOutcome.exdev ∧ env.copyOk = true ∧
            env.fsyncOk = true)))) := by
  rcases env with ⟨tw, rn, cp, fsy, ul⟩
  cases tw <;> cases rn <;> cases cp <;> cases fsy <;>
    simp [writeFileSteps, writeFileOk, List.getLast?]

/-- Witness for C4: the cross-volume fallback environment whose fsync
fails. -/
theorem writeFile_algorithm_witness :
    (envExdevNoSync.tempWriteOk = true ∧
        envExdevNoSync.rename = RenameOutcome.exdev ∧
        envExdevNoSync.copyOk = true) ∧
      ((writeFileSteps envExdevNoSync "/docs" "a.md" "17" "new")[2]?
        = some (FsOp.copy ⟨"/docs", tempBase "a.md" "17"⟩ ⟨"/docs", "a.md"⟩)) :=
  ⟨⟨rfl, rfl, rfl⟩,
    ((writeFile_algorithm envExdevNoSync "/docs" "a.md" "17" "new").2.2.1
      rfl rfl).1⟩

/-- C5: if `writeFile` fails or is interrupted at any point before its
rename (or cross-volume copy) call executes — replay any prefix of the
trace containing no rename/copy call — the file at the target path is
exactly its pre-save content: every call preceding the rename/copy touches
only the temp file, which is a different path. -/
theorem writeFile_crash_preserves_target (env : WriteEnv)
    (fs : FPath → Option String) (dir base ts content : String) (k : Nat)
    (h : ∀ op ∈ (writeFileSteps env dir base ts content).take k,
      isRenameOrCopy op = false) :
    applyOps env ((writeFileSteps env dir base ts content).take k) fs ⟨dir, base⟩
      = fs ⟨dir, base⟩ := by
  apply applyOps_preserve
  intro op hop g
  have hmem : op ∈ writeFileSteps env dir base ts content :=
    List.mem_of_mem_take hop
  have hnrc := h op hop
  have hne : (⟨dir, base⟩ : FPath) ≠ ⟨dir, tempBase base ts⟩ :=
    Ne.symm (tmp_ne_target dir base ts)
  rcases writeFileSteps_mem env dir base ts content op hmem with
    h1 | h1 | h1 | h1 | h1 <;> subst h1
  · simp [applyOp, hne]
  · simp [isRenameOrCopy] at hnrc
  · simp [isRenameOrCopy] at hnrc
  · simp [applyOp]
  · simp [applyOp, hne]

/-- Witness for C5: interrupt after the temp write (prefix of length 1);
`/docs/a.md` still holds `"old"`. -/
theorem writeFile_crash_preserves_target_witness :
    (∀ op ∈ (writeFileSteps envAllOk "/docs" "a.md" "99" "new").take 1,
        isRenameOrCopy op = false) ∧
      applyOps envAllOk ((writeFileSteps envAllOk "/docs" "a.md" "99" "new").take 1)
          fs0 ⟨"/docs", "a.md"⟩ = fs0 ⟨"/docs", "a.md"⟩ :=
  ⟨by decide,
    writeFile_crash_preserves_target envAllOk fs0 "/docs" "a.md" "99" "new" 1
      (by decide)⟩

/-- C8: a dropped file whose (lowercased) extension is outside
`VALID_EXTENSIONS` is rejected inside the renderer: the handler emits
exactly one user-facing error message — naming the rejected extension in
its detail text — and never a `REQUEST_OPEN_PATH`, so the host is not
asked to open the path and no read is attempted. -/
theorem drop_rejected_extension (name p : String)
    (hp : p ≠ "") (hext : extAllowed p = false) :
    handleDrop (some (name, some p))
        = [UIMsg.showError "Unsupported File Type"
            ("Cannot open \"" ++ name ++ "\"")
            (invalidFileDetail (jsLastExt (jsToLower p)))] ∧
      (∀ q, UIMsg.requestOpenPath q ∉ handleDrop (some (name, some p))) ∧
      ((handleDrop (some (name, some p))).countP
          (fun m => match m with
            | UIMsg.showError _ _ _ => true
            | _ => false)) = 1 := by
  have hpe : p.isEmpty = false := isEmpty_false_of_ne p hp
  have hmain : handleDrop (some (name, some p))
      = [UIMsg.showError "Unsupported File Type"
          ("Cannot open \"" ++ name ++ "\"")
          (invalidFileDetail (jsLastExt (jsToLower p)))] := by
    simp [handleDrop, strFalsy, hpe, hext]
  refine ⟨hmain, ?_, ?_⟩
  · intro q
    simp [hmain]
  · simp [hmain, List.countP_cons]

/-- Witness for C8: dropping `/tmp/VIRUS.EXE`. -/
theorem drop_rejected_extension_witness :
    (("/tmp/VIRUS.EXE" : String) ≠ "" ∧ extAllowed "/tmp/VIRUS.EXE" = false) ∧
      (∀ q, UIMsg.requestOpenPath q
        ∉ handleDrop (some ("VIRUS.EXE", some "/tmp/VIRUS.EXE"))) :=
  ⟨⟨by simp, by decide⟩,
    (drop_rejected_extension "VIRUS.EXE" "/tmp/VIRUS.EXE" (by simp)
      (by decide)).2.1⟩

end MarkdownViewer
